import Mathlib

/-!
Verification of the minter-service status-reconciliation engine.

Shallow embedding of `src/lib/mixbytes/minter.py` (the `MinterService`
class: `mint_tokens`, `get_minting_status`, `_get_minting_status_is_confirmed`,
`_prepare_mint_id`, `_silent_redis_call`) and of the HTTP parameter handling
in `src/bin/wsgi_app.py` (`_get_mint_id`, `_get_address`, `_get_tokens`,
route `mint_tokens`).

External collaborators (the web3 ledger client, the redis cache) are
modelled as explicit state records; the best-effort cache wrappers mirror
`_silent_redis_call`, which turns a connectivity failure into `None`.
-/

namespace Minter

/-! ### Keccak-256 (the hash behind `Web3.sha3`, used by `_prepare_mint_id`) -/

def U64MOD : Nat := 2 ^ 64

def xor64 (a b : Nat) : Nat := Nat.xor a b

def and64 (a b : Nat) : Nat := Nat.land a b

def not64 (a : Nat) : Nat := Nat.xor a (U64MOD - 1)

def rotl64 (x n : Nat) : Nat :=
  ((x <<< n) ||| (x >>> (64 - n))) % U64MOD

/-- One step of the degree-8 LFSR (feedback `x^8 + x^6 + x^5 + x^4 + 1`)
generating the Keccak round-constant bit sequence. -/
def rcLfsrStep (r : Nat) : Nat :=
  let r2 := r <<< 1
  if 256 ≤ r2 % 512 then (r2 ^^^ 0x71) % 256 else r2 % 256

/-- Bit `t` of the Keccak round-constant sequence (LFSR seeded with 1). -/
def rcBit (t : Nat) : Nat := (Nat.iterate rcLfsrStep t 1) % 2

/-- Round constant of round `i`: bit `rc(7i + j)` lands at position `2^j - 1`. -/
def roundConstant (i : Nat) : Nat :=
  (List.range 7).foldl (fun acc j => acc + rcBit (7 * i + j) * 2 ^ (2 ^ j - 1)) 0

def keccakRC : List Nat := (List.range 24).map roundConstant

/-- The coordinate walk of the rho step: start at `(1, 0)` and iterate
`(x, y) ↦ (y, (2x + 3y) mod 5)`. -/
def rhoWalk (p : Nat × Nat) : Nat × Nat := (p.2, (2 * p.1 + 3 * p.2) % 5)

def rhoCoord (t : Nat) : Nat × Nat := Nat.iterate rhoWalk t (1, 0)

/-- Rotation offset of lane `i = x + 5*y`: `(t+1)(t+2)/2 mod 64` for the step
`t` whose walk coordinate is that lane; lane 0 is never visited and keeps 0. -/
def rhoOffsetAt (i : Nat) : Nat :=
  match (List.range 24).find? (fun t => (rhoCoord t).1 + 5 * (rhoCoord t).2 = i) with
  | some t => ((t + 1) * (t + 2) / 2) % 64
  | none => 0

/-- Rotation offsets of the Keccak rho step, indexed by lane `x + 5*y`. -/
def rhoOffsets : List Nat := (List.range 25).map rhoOffsetAt

/-- Lane lookup in a 25-lane state (index `x + 5*y`). -/
def lane (A : List Nat) (i : Nat) : Nat := A.getD i 0

def keccakTheta (A : List Nat) : List Nat :=
  let C := fun x =>
    xor64 (xor64 (xor64 (xor64 (lane A x) (lane A (x + 5))) (lane A (x + 10))) (lane A (x + 15))) (lane A (x + 20))
  let D := fun x => xor64 (C ((x + 4) % 5)) (rotl64 (C ((x + 1) % 5)) 1)
  (List.range 25).map (fun i => xor64 (lane A i) (D (i % 5)))

/-- Combined rho/pi step: output lane `(X, Y)` is the rotated input lane `(x, y)`
with `y = X` and `x = 3*(Y - 3*X) mod 5` (inverting `Y = (2x + 3y) mod 5`). -/
def keccakRhoPi (A : List Nat) : List Nat :=
  (List.range 25).map (fun j =>
    let X := j % 5
    let Y := j / 5
    let y := X
    let x := (3 * ((Y + 15) - 3 * y)) % 5
    rotl64 (lane A (x + 5 * y)) (rhoOffsets.getD (x + 5 * y) 0))

def keccakChi (B : List Nat) : List Nat :=
  (List.range 25).map (fun i =>
    let x := i % 5
    let y5 := i - x
    xor64 (lane B i) (and64 (not64 (lane B ((x + 1) % 5 + y5))) (lane B ((x + 2) % 5 + y5))))

def keccakIota (rc : Nat) (A : List Nat) : List Nat :=
  (List.range 25).map (fun i => if i = 0 then xor64 (lane A 0) rc else lane A i)

def keccakRound (A : List Nat) (rc : Nat) : List Nat :=
  keccakIota rc (keccakChi (keccakRhoPi (keccakTheta A)))

def keccakF (A : List Nat) : List Nat :=
  keccakRC.foldl keccakRound A

def KECCAK_RATE : Nat := 136

/-- Original Keccak multi-rate padding (domain byte `0x01`), as used by
Ethereum's `Web3.sha3`. -/
def keccakPad (msg : List Nat) : List Nat :=
  let padlen := KECCAK_RATE - msg.length % KECCAK_RATE
  if padlen = 1 then msg ++ [0x81]
  else msg ++ [0x01] ++ List.replicate (padlen - 2) 0 ++ [0x80]

/-- Little-endian interpretation of up to 8 bytes as a 64-bit lane. -/
def laneOfBytes (bs : List Nat) : Nat :=
  bs.foldr (fun b acc => acc * 256 + b % 256) 0

def absorbBlock (A : List Nat) (block : List Nat) : List Nat :=
  (List.range 25).map (fun i =>
    if i < 17 then xor64 (lane A i) (laneOfBytes ((block.drop (8 * i)).take 8)) else lane A i)

def absorbBlocks (A : List Nat) (msg : List Nat) : List Nat :=
  if h : msg = [] then A
  else absorbBlocks (keccakF (absorbBlock A (msg.take KECCAK_RATE))) (msg.drop KECCAK_RATE)
termination_by msg.length
decreasing_by
  have hpos : 0 < msg.length := List.length_pos.mpr h
  simp only [List.length_drop, KECCAK_RATE]
  omega

/-- First 32 bytes of the state, little-endian per lane. -/
def squeeze32 (A : List Nat) : List Nat :=
  (List.range 32).map (fun i => (lane A (i / 8) >>> (8 * (i % 8))) % 256)

def keccak256 (msg : List Nat) : List Nat :=
  squeeze32 (absorbBlocks (List.replicate 25 0) (keccakPad msg))

/-! ### `MinterService._prepare_mint_id` -/

/-- A mint id supplied by the caller: `str` or `bytes` (any other type raises
`TypeError` in the source, which the input type rules out). -/
inductive MintIdInput
  | str (s : String)
  | bytes (b : List Nat)

/-- `_prepare_mint_id`: utf-8 encode a `str`, then `Web3.toBytes(Web3.sha3 ...)`,
i.e. the 32 Keccak-256 digest bytes. -/
def prepare_mint_id : MintIdInput → List Nat
  | .str s => keccak256 (s.toUTF8.toList.map (fun b => b.toNat))
  | .bytes b => keccak256 b

/-! ### Ledger (web3) and cache (redis) state -/

/-- Result statuses built by `_build_status` in `get_minting_status`. -/
inductive Status
  | minted
  | minting (confirmations rest_confirmations : Int)
  | failed
  | node_syncing
  | not_minted
deriving DecidableEq, Repr

/-- The part of a `getTransaction` result the reconciler reads. -/
structure TxData where
  blockNumber : Option Nat
deriving DecidableEq, Repr

/-- A transaction receipt; the source's `get_receipt_status` normalizes the
`status` field (int or hex string) into the numeric code held here. -/
structure Receipt where
  status : Nat
deriving DecidableEq, Repr

def get_receipt_status (receipt : Receipt) : Nat := receipt.status

/-- The web3 ledger client state visible to the reconciler: chain height,
the contract's `m_processed_mint_id` mapping for the queried mint id as read
at a given pinned block, sync state, transaction/receipt lookup (keyed by the
cached transaction hash, modelled as `Nat`), and `eth.defaultBlock`
(`none` = `'latest'`). -/
structure W3 where
  blockNumber : Nat
  processedAt : Nat → Bool
  syncing : Bool
  getTransaction : Nat → Option TxData
  getTransactionReceipt : Nat → Option Receipt
  defaultBlock : Option Nat

/-- A contract `call().m_processed_mint_id(...)` reads at `eth.defaultBlock`. -/
def W3.readProcessed (w : W3) : Bool :=
  w.processedAt (w.defaultBlock.getD w.blockNumber)

/-- Redis state for one mint id: the hint list under `_redis_mint_tx_key(mint_id)`
(in `lrange` order; `lpush` prepends), the block-height marker under the
`bh`-prefixed key, and whether the server is reachable.  All accesses below go
through `_silent_redis_call`, which turns a connectivity failure into `None`. -/
structure Cache where
  available : Bool
  txIds : List Nat
  marker : Option Nat
deriving DecidableEq, Repr

/-- `_silent_redis_call(self._redis.lrange, key, 0, -1) or []`. -/
def Cache.lrangeHints (c : Cache) : List Nat :=
  if c.available then c.txIds else []

/-- `_silent_redis_call(self._redis.get, bh_key)`. -/
def Cache.getMarker (c : Cache) : Option Nat :=
  if c.available then c.marker else none

/-- `_silent_redis_call(self._redis.set, bh_key, blockNumber, ex=3600)`. -/
def Cache.setMarker (c : Cache) (v : Nat) : Cache :=
  if c.available then { c with marker := some v } else c

/-- `_silent_redis_call(self._redis.delete, key)` (a later `lrange` of the
deleted key yields the empty list). -/
def Cache.deleteHints (c : Cache) : Cache :=
  if c.available then { c with txIds := [] } else c

/-- `_silent_redis_call(self._redis.lpush, key, tx_hash)`. -/
def Cache.lpushHint (c : Cache) (h : Nat) : Cache :=
  if c.available then { c with txIds := h :: c.txIds } else c

/-! ### `MinterService._get_minting_status_is_confirmed` -/

/-- `_get_minting_status_is_confirmed(prepared_mint_id)`.
`require_confirmations` is `some n` iff the key is present in the
configuration; `minter_contract_block_num` is the deployment block recorded in
the state file.  Returns the boolean outcome together with the ledger state
(`eth.defaultBlock` may be pinned and restored by the `try/finally`) and the
cache state (the hint list is deleted on the `True` path). -/
def is_confirmed (require_confirmations : Option Int)
    (minter_contract_block_num : Nat) (w : W3) (c : Cache) :
    Bool × W3 × Cache :=
  match require_confirmations with
  | some n =>
    let confirmed_block : Int := (w.blockNumber : Int) - n
    if confirmed_block < 0 then (false, w, c)
    else if (minter_contract_block_num : Int) ≥ confirmed_block then (false, w, c)
    else
      let saved_default := w.defaultBlock
      let wPinned : W3 := { w with defaultBlock := some confirmed_block.toNat }
      let res := wPinned.readProcessed
      let wRestored : W3 := { wPinned with defaultBlock := saved_default }
      if res then (true, wRestored, c.deleteHints) else (false, wRestored, c)
  | none =>
    if w.readProcessed then (true, w, c.deleteHints) else (false, w, c)

/-! ### `MinterService.get_minting_status` -/

/-- The scan over `txs` in `get_minting_status`: return `failed` at the first
mined transaction whose receipt is present with status 0; skip unmined
transactions and missing receipts. -/
def scan_failed (w : W3) : List (Nat × TxData) → Bool
  | [] => false
  | (txid, tx) :: rest =>
    match tx.blockNumber with
    | none => scan_failed w rest
    | some _ =>
      match w.getTransactionReceipt txid with
      | none => scan_failed w rest
      | some receipt =>
        if get_receipt_status receipt = 0 then true else scan_failed w rest

/-- `get_minting_status(mint_id)` (after `_prepare_mint_id`); returns the
status together with the resulting ledger and cache states. -/
def get_minting_status (require_confirmations : Option Int)
    (minter_contract_block_num : Nat) (w : W3) (c : Cache) :
    Status × W3 × Cache :=
  let step1 := is_confirmed require_confirmations minter_contract_block_num w c
  if step1.1 then (Status.minted, step1.2.1, step1.2.2)
  else
    let w1 := step1.2.1
    let c1 := step1.2.2
    if 0 < require_confirmations.getD 0 && w1.readProcessed then
      let current_block_number := w1.blockNumber
      let mint_id_block := c1.getMarker
      let c2 := if mint_id_block.isNone then c1.setMarker w1.blockNumber else c1
      let start_mint_block : Int := ((mint_id_block.getD current_block_number : Nat) : Int)
      let confirmations : Int := (current_block_number : Int) - start_mint_block
      let rest_confirmations : Int := require_confirmations.getD 0 - confirmations
      (Status.minting confirmations rest_confirmations, w1, c2)
    else
      let tx_bin_ids := c1.lrangeHints
      let txs := tx_bin_ids.filterMap
        (fun txid => (w1.getTransaction txid).map (fun tx => (txid, tx)))
      if scan_failed w1 txs then (Status.failed, w1, c1)
      else if ¬ txs.isEmpty then
        (Status.minting 0 (require_confirmations.getD 0), w1, c1)
      else if w1.syncing then (Status.node_syncing, w1, c1)
      else (Status.not_minted, w1, c1)

/-! ### `MinterService.mint_tokens` -/

/-- `_gas_limit()`: 90% of the latest block's gas limit (the source computes
`int(gasLimit * 0.9)`; modelled as exact rational arithmetic), capped by the
configured `gas_limit` when present. -/
def gas_limit_calc (conf_gas_limit : Option Nat) (latest_block_gas_limit : Nat) : Nat :=
  let limit := latest_block_gas_limit * 9 / 10
  match conf_gas_limit with
  | some g => min g limit
  | none => limit

/-- `mint_tokens(mint_id, address, tokens)`: prepare the id, compute gas
parameters, submit via the contract's `mint` entry point (`transact_mint`,
an external ledger call yielding the transaction hash), then best-effort
`lpush` the hash as a hint.  Returns the hash and the resulting cache. -/
def mint_tokens (transact_mint : List Nat → String → Int → Nat → Nat → Nat)
    (gas_price : Nat) (conf_gas_limit : Option Nat) (latest_block_gas_limit : Nat)
    (mint_id : MintIdInput) (address : String) (tokens : Int) (c : Cache) :
    Nat × Cache :=
  let prepared := prepare_mint_id mint_id
  let gas := gas_limit_calc conf_gas_limit latest_block_gas_limit
  let tx_hash := transact_mint prepared address tokens gas_price gas
  (tx_hash, c.lpushHint tx_hash)

/-! ### `src/bin/wsgi_app.py`: parameter extraction and the `/mintTokens` route -/

/-- Outcome of a flask handler fragment: the value, or `abort(400, msg)`. -/
inductive HttpResult (α : Type)
  | ok (val : α)
  | badRequest (msg : String)
deriving DecidableEq, Repr

/-- Python `str.strip()` whitespace for ASCII inputs. -/
def pyIsSpace (ch : Char) : Bool :=
  ch = ' ' || ch = '\t' || ch = '\n' || ch = '\r' || ch = Char.ofNat 11 || ch = Char.ofNat 12

def pyStrip (s : String) : List Char :=
  ((s.toList.dropWhile pyIsSpace).reverse.dropWhile pyIsSpace).reverse

def isPyDigit (ch : Char) : Bool := '0' ≤ ch && ch ≤ '9'

/-- No two consecutive underscores. -/
def noDoubleUnderscore : List Char → Bool
  | [] => true
  | [_] => true
  | a :: b :: rest => !(a = '_' && b = '_') && noDoubleUnderscore (b :: rest)

/-- Digit run as accepted by Python's `int()` after the sign: nonempty, all
digits or single separating underscores, starting and ending with a digit. -/
def validPyDigits (l : List Char) : Bool :=
  !l.isEmpty
  && isPyDigit (l.headD '_')
  && isPyDigit (l.getLastD '_')
  && l.all (fun c => isPyDigit c || c = '_')
  && noDoubleUnderscore l

def digitsValue (l : List Char) : Nat :=
  l.foldl (fun acc ch => acc * 10 + (ch.toNat - 48)) 0

/-- Python `int(s)` on a base-10 string: strip whitespace, optional single
sign, digit run with optional underscore separators; `none` models the
`ValueError` raised on anything else. -/
def pyIntOfString (s : String) : Option Int :=
  let cs := pyStrip s
  match cs with
  | '-' :: rest =>
    if validPyDigits rest
    then some (-(digitsValue (rest.filter (fun c => c ≠ '_')) : Int)) else none
  | '+' :: rest =>
    if validPyDigits rest
    then some ((digitsValue (rest.filter (fun c => c ≠ '_')) : Int)) else none
  | _ =>
    if validPyDigits cs
    then some ((digitsValue (cs.filter (fun c => c ≠ '_')) : Int)) else none

/-- `_get_mint_id()`: abort 400 on an empty `mint_id`. -/
def get_mint_id_param (mint_id : String) : HttpResult String :=
  if mint_id.length = 0 then .badRequest "empty mint_id" else .ok mint_id

/-- `_validate_address` / `_get_address`; `Web3.isAddress` is external, passed
in as a predicate. -/
def get_address_param (isAddress : String → Bool) (address : String) : HttpResult String :=
  if isAddress address then .ok address else .badRequest "bad address"

/-- `_get_tokens()`: `int(request.args['tokens_amount'])`, abort 400 on
`ValueError`.  No sign check is performed. -/
def get_tokens_param (tokens : String) : HttpResult Int :=
  match pyIntOfString tokens with
  | some n => .ok n
  | none => .badRequest "bad tokens_amount"

/-- Observable outcome of the `/mintTokens` route: the HTTP response and
whether `wsgi_minter.mint_tokens` was invoked (arguments are evaluated left
to right, so the first `abort` prevents the submission). -/
structure RouteOutcome where
  response : HttpResult Unit
  submitted : Bool
deriving DecidableEq, Repr

def mint_tokens_route (isAddress : String → Bool)
    (mint_id address tokens_amount : String) : RouteOutcome :=
  match get_mint_id_param mint_id with
  | .badRequest m => ⟨.badRequest m, false⟩
  | .ok _ =>
    match get_address_param isAddress address with
    | .badRequest m => ⟨.badRequest m, false⟩
    | .ok _ =>
      match get_tokens_param tokens_amount with
      | .badRequest m => ⟨.badRequest m, false⟩
      | .ok _ => ⟨.ok (), true⟩

/-! ### Auxiliary notions used by the claims -/

/-- Modelled from the spec: the `ReenterableMinter` contract (referenced via
its built ABI, its Solidity source is not under `src/`) exposes an idempotent
`mint` keyed by mint id and the read-only query `m_processed_mint_id`; once a
mint id has been processed at some block it remains processed at every later
block of the same chain (the mapping is only ever set, never cleared). -/
def ProcessedMonotone (p : Nat → Bool) : Prop :=
  ∀ b₁ b₂, b₁ ≤ b₂ → p b₁ = true → p b₂ = true

/-- The block at which the confirmed-authoritative read of `get_minting_status`
looks at the contract state: `blockNumber - require_confirmations` when the
requirement is configured, the default (head) block otherwise. -/
def confirmed_block_of (require_confirmations : Option Int) (w : W3) : Nat :=
  match require_confirmations with
  | some n => ((w.blockNumber : Int) - n).toNat
  | none => w.defaultBlock.getD w.blockNumber

/-! ### Concrete states for counterexamples and witnesses -/

/-- A ledger whose contract mapping reads via `pf`, with nothing else going on. -/
def plainW3 (height : Nat) (pf : Nat → Bool) (sync : Bool) : W3 :=
  { blockNumber := height, processedAt := pf, syncing := sync,
    getTransaction := fun _ => none, getTransactionReceipt := fun _ => none,
    defaultBlock := none }

/-- An empty, reachable cache. -/
def emptyCache : Cache := { available := true, txIds := [], marker := none }

/-- Ledger for the failed-hint scenario: unprocessed contract, hint 5 still
pending, hint 7 mined at block 3 with a status-0 receipt. -/
def c2W : W3 :=
  { blockNumber := 10, processedAt := fun _ => false, syncing := false,
    getTransaction := fun i =>
      if i = 7 then some { blockNumber := some 3 } else some { blockNumber := none },
    getTransactionReceipt := fun i => if i = 7 then some { status := 0 } else none,
    defaultBlock := none }

/-! ### Helper lemmas -/

/-- The `try/finally` of `_get_minting_status_is_confirmed` restores
`eth.defaultBlock`, so the ledger state comes back unchanged. -/
theorem is_confirmed_w (N : Option Int) (d : Nat) (w : W3) (c : Cache) :
    (is_confirmed N d w c).2.1 = w := by
  unfold is_confirmed
  cases N <;> simp only [] <;> split_ifs <;> rfl

theorem is_confirmed_cache_marker (N : Option Int) (d : Nat) (w : W3) (c : Cache) :
    ((is_confirmed N d w c).2.2).marker = c.marker := by
  unfold is_confirmed Cache.deleteHints
  cases N <;> simp only [] <;> split_ifs <;> rfl

theorem is_confirmed_cache_available (N : Option Int) (d : Nat) (w : W3) (c : Cache) :
    ((is_confirmed N d w c).2.2).available = c.available := by
  unfold is_confirmed Cache.deleteHints
  cases N <;> simp only [] <;> split_ifs <;> rfl

theorem is_confirmed_cache_of_false (N : Option Int) (d : Nat) (w : W3) (c : Cache)
    (h : (is_confirmed N d w c).1 = false) : (is_confirmed N d w c).2.2 = c := by
  unfold is_confirmed at h ⊢
  cases N <;> simp only [] at h ⊢ <;> split_ifs at h ⊢ <;> simp_all

theorem is_confirmed_of_unprocessed (N : Option Int) (d : Nat) (w : W3) (c : Cache)
    (hproc : ∀ b, w.processedAt b = false) : is_confirmed N d w c = (false, w, c) := by
  unfold is_confirmed W3.readProcessed
  cases N <;> simp only [hproc] <;> split_ifs <;> simp_all

/-- `get_minting_status` returns `minted` exactly when the
confirmed-authoritative check succeeds. -/
theorem status_minted_iff (N : Option Int) (d : Nat) (w : W3) (c : Cache) :
    (get_minting_status N d w c).1 = Status.minted ↔ (is_confirmed N d w c).1 = true := by
  unfold get_minting_status
  by_cases h : (is_confirmed N d w c).1 <;> simp only [h, if_true, if_false] <;> simp
  split_ifs <;> simp

/-- The failure scan returns `true` exactly when some hint pair is mined with
a present receipt of status 0. -/
theorem scan_failed_iff (w : W3) (l : List (Nat × TxData)) :
    scan_failed w l = true ↔
      ∃ p ∈ l, p.2.blockNumber.isSome = true ∧
        ∃ r, w.getTransactionReceipt p.1 = some r ∧ get_receipt_status r = 0 := by
  induction l with
  | nil => simp [scan_failed]
  | cons hd tl ih =>
    obtain ⟨txid, tx⟩ := hd
    cases hbn : tx.blockNumber with
    | none => simp [scan_failed, hbn, ih]
    | some b =>
      cases hr : w.getTransactionReceipt txid with
      | none => simp [scan_failed, hbn, hr, ih]
      | some r =>
        by_cases hs : get_receipt_status r = 0
        · simp [scan_failed, hbn, hr, hs]
        · simp [scan_failed, hbn, hr, hs, ih]

/-- When neither the confirmed check nor the current-head read shows the id
processed, `get_minting_status` is decided by the hint scan and sync state. -/
theorem get_minting_status_fallback (N : Option Int) (d : Nat) (w : W3) (c : Cache)
    (hp1 : (is_confirmed N d w c).1 = false) (hp2 : w.readProcessed = false) :
    (get_minting_status N d w c).1 =
      (if scan_failed w (c.lrangeHints.filterMap
            (fun txid => (w.getTransaction txid).map (fun tx => (txid, tx)))) then
        Status.failed
      else if ¬ (c.lrangeHints.filterMap
            (fun txid => (w.getTransaction txid).map (fun tx => (txid, tx)))).isEmpty then
        Status.minting 0 (N.getD 0)
      else if w.syncing then Status.node_syncing
      else Status.not_minted) := by
  unfold get_minting_status
  simp only [is_confirmed_w, is_confirmed_cache_of_false N d w c hp1, hp1, hp2,
    Bool.false_eq_true, if_false, Bool.and_false]
  split_ifs <;> rfl

/-! ### Claim C10 -/

/-- C10: with a confirmation requirement configured, `get_minting_status`
leaves the ledger client's default block pointer unchanged — the pinned
historical read restores `eth.defaultBlock` in a `finally` clause, on both
outcomes of the check. -/
theorem c10_default_block_restored (n : Int) (d : Nat) (w : W3) (c : Cache) :
    ((get_minting_status (some n) d w c).2.1).defaultBlock = w.defaultBlock
    ∧ ((is_confirmed (some n) d w c).2.1).defaultBlock = w.defaultBlock := by
  constructor
  · unfold get_minting_status
    simp only [is_confirmed_w]
    split_ifs <;> rfl
  · rw [is_confirmed_w]

/-! ### Claim C3 (corrected) -/

/-- C3 counterexample: with `require_confirmations` configured as 0, the
contract deployed at the current head and the processed mapping true at the
head, the claim predicts `minted` (current-head read alone decides), but
`get_minting_status` runs Step 1's pinned machinery, hits the
deployment-block guard, skips Step 2, and returns `not_minted`. -/
theorem c3_counterexample :
    (get_minting_status (some 0) 5 (plainW3 5 (fun _ => true) false) emptyCache).1
        = Status.not_minted
    ∧ (plainW3 5 (fun _ => true) false).readProcessed = true := by
  constructor <;> rfl

/-- C3 amended: when the confirmation requirement is ABSENT from the
configuration, Step 1 reduces to an unpinned current-head read and Step 2 is
skipped, so the head read alone decides `minted`; when it is configured as 0,
Step 2 is skipped but Step 1 still runs its pinned-block machinery anchored
at the current height, including the deployment-block guard, so `minted`
additionally requires the deployment block to be below the current height. -/
theorem c3_zero_confirmations (d : Nat) (w : W3) (c : Cache) :
    ((get_minting_status none d w c).1 = Status.minted ↔ w.readProcessed = true)
    ∧ ((get_minting_status (some 0) d w c).1 = Status.minted ↔
        ((d : Int) < (w.blockNumber : Int)
          ∧ w.processedAt w.blockNumber = true)) := by
  rw [status_minted_iff, status_minted_iff]
  constructor
  · unfold is_confirmed
    split_ifs with h <;> simp [h]
  · unfold is_confirmed W3.readProcessed
    simp only [sub_zero]
    split_ifs with h1 h2 h3 <;> simp_all <;> omega

/-! ### Claim C1 (corrected) -/

/-- C1 counterexample: confirmation requirement 1 configured, chain height 0
(so `confirmed_block = -1 < 0`), contract unprocessed everywhere, no hints,
node not syncing: `get_minting_status` returns `not_minted`, contradicting
the claim that the status is `minting` and never `not_minted` regardless of
contract state, hints and syncing state. -/
theorem c1_counterexample :
    (get_minting_status (some 1) 0 (plainW3 0 (fun _ => false) false) emptyCache).1
      = Status.not_minted := by
  rfl

/-- C1 amended: when N > 0 is configured and `currentHeight - N < 0`, the
confirmed-authoritative check returns false, so the status is never `minted`;
if the contract additionally reports the id processed at the current head,
the status is `minting` (with the marker-based confirmation counts), hence
not `not_minted`; without that, the status is decided by the hint/syncing
fallback and can be `not_minted` (see the counterexample). -/
theorem c1_young_chain (n : Int) (d : Nat) (w : W3) (c : Cache)
    (hn : 0 < n) (hyoung : (w.blockNumber : Int) - n < 0)
    (hp : w.readProcessed = true) :
    (get_minting_status (some n) d w c).1
      = Status.minting ((w.blockNumber : Int) - (c.getMarker.getD w.blockNumber : Nat))
          (n - ((w.blockNumber : Int) - (c.getMarker.getD w.blockNumber : Nat)))
    ∧ (get_minting_status (some n) d w c).1 ≠ Status.not_minted
    ∧ (get_minting_status (some n) d w c).1 ≠ Status.minted := by
  have hstep1 : is_confirmed (some n) d w c = (false, w, c) := by
    simp only [is_confirmed, hyoung, if_true]
  have hmain : (get_minting_status (some n) d w c).1
      = Status.minting ((w.blockNumber : Int) - (c.getMarker.getD w.blockNumber : Nat))
          (n - ((w.blockNumber : Int) - (c.getMarker.getD w.blockNumber : Nat))) := by
    unfold get_minting_status
    rw [hstep1]
    simp only [hp, Option.getD_some, Bool.and_true, decide_eq_true_eq]
    rw [if_neg (by simp), if_pos (by simpa using hn)]
  refine ⟨hmain, ?_, ?_⟩ <;> rw [hmain] <;> simp

/-- C1 witness: height 0, requirement 1, contract processed at the head. -/
theorem c1_witness :
    (0 : Int) < 1 ∧ ((0 : Nat) : Int) - 1 < 0
    ∧ (get_minting_status (some 1) 0 (plainW3 0 (fun _ => true) false) emptyCache).1
        = Status.minting 0 (1 - 0) := by
  refine ⟨by norm_num, by norm_num, ?_⟩
  have h := (c1_young_chain 1 0 (plainW3 0 (fun _ => true) false) emptyCache
    (by norm_num) (by decide) rfl).1
  rw [h]
  decide

/-! ### Claim C2 -/

/-- C2: when the contract shows the id unprocessed both at the pinned
confirmed block (the confirmed-authoritative check fails) and at the current
head, and some hint in the cached list resolves to a mined transaction whose
receipt has status 0, `get_minting_status` returns `failed` — a failure found
anywhere in the hint list outranks pending hints (which the scan skips), so
the result is neither `minting` nor `not_minted`.  The single-hint instance
is the witness. -/
theorem c2_failed_hint_terminal (N : Option Int) (d : Nat) (w : W3) (c : Cache)
    (hp1 : (is_confirmed N d w c).1 = false) (hp2 : w.readProcessed = false)
    (txid : Nat) (hmem : txid ∈ c.lrangeHints)
    (tx : TxData) (htx : w.getTransaction txid = some tx)
    (hmined : tx.blockNumber.isSome = true)
    (r : Receipt) (hr : w.getTransactionReceipt txid = some r)
    (hst : get_receipt_status r = 0) :
    (get_minting_status N d w c).1 = Status.failed := by
  rw [get_minting_status_fallback N d w c hp1 hp2]
  have hscan : scan_failed w (c.lrangeHints.filterMap
      (fun txid => (w.getTransaction txid).map (fun tx => (txid, tx)))) = true := by
    rw [scan_failed_iff]
    refine ⟨(txid, tx), ?_, hmined, r, hr, hst⟩
    rw [List.mem_filterMap]
    exact ⟨txid, hmem, by rw [htx]; rfl⟩
  rw [if_pos hscan]

/-- C2 witness: one hint (tx id 7) mined in block 3 with receipt status 0,
alongside a second still-pending hint (tx id 5); the contract is unprocessed
everywhere; the status is `failed`. -/
theorem c2_witness :
    (is_confirmed (some 2) 0 c2W ⟨true, [5, 7], none⟩).1 = false
    ∧ c2W.readProcessed = false
    ∧ 7 ∈ (Cache.lrangeHints ⟨true, [5, 7], none⟩)
    ∧ c2W.getTransaction 7 = some { blockNumber := some 3 }
    ∧ (get_minting_status (some 2) 0 c2W ⟨true, [5, 7], none⟩).1 = Status.failed := by
  refine ⟨by decide, by decide, by decide, by decide, ?_⟩
  exact c2_failed_hint_terminal (some 2) 0 c2W ⟨true, [5, 7], none⟩
    (by decide) (by decide) 7 (by decide) { blockNumber := some 3 } (by decide)
    (by decide) { status := 0 } (by decide) (by decide)

/-! ### Claim C5 -/

/-- C5: when the contract shows the id unprocessed (Step 1 check false and
head read false) and no hint yields a transaction (empty list, unreachable
cache — which degrades to an empty list — or every lookup returning
nothing), `get_minting_status` returns `node_syncing` when the ledger
reports syncing, and `not_minted` otherwise. -/
theorem c5_no_usable_hints (N : Option Int) (d : Nat) (w : W3) (c : Cache)
    (hp1 : (is_confirmed N d w c).1 = false) (hp2 : w.readProcessed = false)
    (hhints : ∀ txid ∈ c.lrangeHints, w.getTransaction txid = none) :
    (get_minting_status N d w c).1
      = if w.syncing then Status.node_syncing else Status.not_minted := by
  rw [get_minting_status_fallback N d w c hp1 hp2]
  have htxs : c.lrangeHints.filterMap
      (fun txid => (w.getTransaction txid).map (fun tx => (txid, tx))) = [] := by
    rw [List.filterMap_eq_nil]
    intro a ha
    rw [hhints a ha]
    rfl
  rw [htxs]
  simp [scan_failed]

/-- C5 witness: no hints, syncing node, unprocessed contract gives
`node_syncing`. -/
theorem c5_witness :
    (is_confirmed (some 2) 0 (plainW3 10 (fun _ => false) true) emptyCache).1 = false
    ∧ (plainW3 10 (fun _ => false) true).readProcessed = false
    ∧ (get_minting_status (some 2) 0 (plainW3 10 (fun _ => false) true) emptyCache).1
        = (if (plainW3 10 (fun _ => false) true).syncing then Status.node_syncing
           else Status.not_minted) := by
  refine ⟨by decide, by decide, ?_⟩
  exact c5_no_usable_hints (some 2) 0 (plainW3 10 (fun _ => false) true) emptyCache
    (by decide) (by decide) (by decide)

/-! ### Claim C7 -/

/-- C7: cache unavailability degrades to "no data" and is never propagated:
`mint_tokens` returns the transaction hash produced by the ledger call
whatever the cache state (the hint `lpush` goes through `_silent_redis_call`),
and `get_minting_status` with an unreachable cache — every wrapped cache read
yielding "no data" — still returns, falling through to the syncing /
`not_minted` branch when the contract also shows the id unprocessed. -/
theorem c7_cache_never_fatal
    (transact_mint : List Nat → String → Int → Nat → Nat → Nat)
    (gas_price : Nat) (conf_gas_limit : Option Nat) (latest_block_gas_limit : Nat)
    (mint_id : MintIdInput) (address : String) (tokens : Int)
    (N : Option Int) (d : Nat) (w : W3) (c : Cache)
    (hcache : c.available = false)
    (hproc : ∀ b, w.processedAt b = false) :
    (mint_tokens transact_mint gas_price conf_gas_limit latest_block_gas_limit
        mint_id address tokens c).1
      = transact_mint (prepare_mint_id mint_id) address tokens gas_price
          (gas_limit_calc conf_gas_limit latest_block_gas_limit)
    ∧ (get_minting_status N d w c).1
        = if w.syncing then Status.node_syncing else Status.not_minted := by
  constructor
  · rfl
  · have hp1 : (is_confirmed N d w c).1 = false := by
      rw [is_confirmed_of_unprocessed N d w c hproc]
    have hp2 : w.readProcessed = false := by
      unfold W3.readProcessed
      exact hproc _
    rw [get_minting_status_fallback N d w c hp1 hp2]
    have hempty : c.lrangeHints = [] := by
      unfold Cache.lrangeHints
      rw [hcache]
      rfl
    rw [hempty]
    simp [scan_failed]

/-- C7 witness: an unreachable cache, an unprocessed contract, a non-syncing
node: the submitted hash is still returned and the status is `not_minted`. -/
theorem c7_witness :
    (Cache.available ⟨false, [], none⟩) = false
    ∧ (mint_tokens (fun _ _ _ _ _ => 42) 1 none 100 (MintIdInput.str "m1") "0xa" 5
          ⟨false, [], none⟩).1
        = (fun _ _ _ _ _ => 42) (prepare_mint_id (MintIdInput.str "m1")) "0xa" 5 1
            (gas_limit_calc none 100)
    ∧ (get_minting_status (some 2) 0 (plainW3 10 (fun _ => false) false)
          ⟨false, [], none⟩).1
        = (if (plainW3 10 (fun _ => false) false).syncing then Status.node_syncing
           else Status.not_minted) := by
  have h := c7_cache_never_fatal (fun _ _ _ _ _ => 42) 1 none 100
    (MintIdInput.str "m1") "0xa" 5 (some 2) 0 (plainW3 10 (fun _ => false) false)
    ⟨false, [], none⟩ rfl (fun _ => rfl)
  exact ⟨rfl, h.1, h.2⟩

/-! ### Claim C4 -/

theorem is_confirmed_none_true_iff (d : Nat) (w : W3) (c : Cache) :
    (is_confirmed none d w c).1 = true ↔ w.readProcessed = true := by
  simp only [is_confirmed]
  split_ifs with h <;> simp [h]

theorem is_confirmed_some_true_iff (n : Int) (d : Nat) (w : W3) (c : Cache) :
    (is_confirmed (some n) d w c).1 = true ↔
      (0 ≤ (w.blockNumber : Int) - n ∧ (d : Int) < (w.blockNumber : Int) - n
        ∧ w.processedAt ((w.blockNumber : Int) - n).toNat = true) := by
  simp only [is_confirmed, W3.readProcessed, Option.getD_some]
  split_ifs with h1 h2 h3
  · constructor
    · intro h; simp at h
    · rintro ⟨ha, -, -⟩; omega
  · constructor
    · intro h; simp at h
    · rintro ⟨-, hb, -⟩; omega
  · constructor
    · intro _; exact ⟨by omega, by omega, h3⟩
    · intro _; rfl
  · constructor
    · intro h; simp at h
    · rintro ⟨-, -, hc⟩; exact absurd hc h3

/-- C4: once the confirmed-authoritative check has made `get_minting_status`
return `minted` for a mint id, every later query returns `minted` again,
provided: the chain height does not decrease, the default block pointer is
`latest` on both queries, the processed mapping at or below the original
confirmed block is unchanged, and the contract's processed mapping is
set-once (monotone in block height).  `minted` is a terminal state. -/
theorem c4_minted_terminal (N : Option Int) (d : Nat) (w w' : W3) (c c' : Cache)
    (hfirst : (get_minting_status N d w c).1 = Status.minted)
    (hH : w.blockNumber ≤ w'.blockNumber)
    (hdef : w.defaultBlock = none) (hdef' : w'.defaultBlock = none)
    (hstable : ∀ b, b ≤ confirmed_block_of N w → w'.processedAt b = w.processedAt b)
    (hmono : ProcessedMonotone w'.processedAt) :
    (get_minting_status N d w' c').1 = Status.minted := by
  rw [status_minted_iff] at hfirst ⊢
  cases N with
  | none =>
    rw [is_confirmed_none_true_iff] at hfirst ⊢
    unfold W3.readProcessed at hfirst ⊢
    rw [hdef] at hfirst
    rw [hdef']
    simp only [Option.getD_none] at hfirst ⊢
    have hs : w'.processedAt w.blockNumber = w.processedAt w.blockNumber := by
      refine hstable _ ?_
      unfold confirmed_block_of
      rw [hdef]
      simp
    exact hmono w.blockNumber w'.blockNumber hH (hs.trans hfirst)
  | some n =>
    rw [is_confirmed_some_true_iff] at hfirst ⊢
    obtain ⟨h0, hd, hp⟩ := hfirst
    have hcb : ((w.blockNumber : Int) - n).toNat ≤ ((w'.blockNumber : Int) - n).toNat := by
      omega
    refine ⟨by omega, by omega, ?_⟩
    have hs : w'.processedAt (((w.blockNumber : Int) - n).toNat)
        = w.processedAt (((w.blockNumber : Int) - n).toNat) := by
      refine hstable _ ?_
      unfold confirmed_block_of
      exact le_refl _
    exact hmono _ _ hcb (hs.trans hp)

/-- C4 witness: requirement 1, deployment block 0, the id processed from
block 2 on; at height 3 the status is `minted`, and at height 5 (same chain
below the old confirmed block, set-once mapping) it is `minted` again. -/
theorem c4_witness :
    (get_minting_status (some 1) 0 (plainW3 3 (fun b => decide (2 ≤ b)) false) emptyCache).1
        = Status.minted
    ∧ (get_minting_status (some 1) 0 (plainW3 5 (fun b => decide (2 ≤ b)) false) emptyCache).1
        = Status.minted := by
  refine ⟨by decide, ?_⟩
  refine c4_minted_terminal (some 1) 0 (plainW3 3 (fun b => decide (2 ≤ b)) false)
    (plainW3 5 (fun b => decide (2 ≤ b)) false) emptyCache emptyCache
    (by decide) (by decide) rfl rfl (fun b _ => rfl) ?_
  intro b₁ b₂ hle h1
  simp only [plainW3, decide_eq_true_eq] at h1 ⊢
  omega

/-! ### Claim C6 -/

/-- When Step 1 fails, Step 2 applies (N > 0, processed at head) and the
marker is already present in a reachable cache, `get_minting_status` returns
`minting` with anchor-based counts and leaves the cache untouched. -/
theorem get_minting_status_step2 (N : Option Int) (d : Nat) (w : W3) (c : Cache) (m : Nat)
    (hs1 : (is_confirmed N d w c).1 = false) (hN : 0 < N.getD 0)
    (hp : w.readProcessed = true) (hm : c.marker = some m) (hav : c.available = true) :
    get_minting_status N d w c
      = (Status.minting ((w.blockNumber : Int) - (m : Int))
           (N.getD 0 - ((w.blockNumber : Int) - (m : Int))), w, c) := by
  have hgm : c.getMarker = some m := by
    unfold Cache.getMarker
    rw [hav, if_pos rfl]
    exact hm
  unfold get_minting_status
  simp only [is_confirmed_w, is_confirmed_cache_of_false N d w c hs1, hs1,
    Bool.false_eq_true, if_false, hp, Bool.and_true, hgm, Option.isNone_some,
    Option.getD_some, decide_eq_true_eq, if_pos hN]

/-- C6: the confirmation anchor is written by Step 2 only when absent and is
never overwritten while present: across two polls that both take Step 2 with
the marker `m` present in a reachable cache and a non-decreasing chain
height, the cache keeps the marker `m`, both polls report `minting` with
`confirmations = height - m`, and the reported confirmations are
monotonically non-decreasing. -/
theorem c6_marker_never_overwritten (N : Option Int) (d : Nat) (w w' : W3)
    (c c' : Cache) (m : Nat)
    (hm : c.marker = some m) (hm' : c'.marker = some m)
    (hav : c.available = true) (hav' : c'.available = true)
    (hs1 : (is_confirmed N d w c).1 = false)
    (hs1' : (is_confirmed N d w' c').1 = false)
    (hN : 0 < N.getD 0)
    (hp : w.readProcessed = true) (hp' : w'.readProcessed = true)
    (hH : w.blockNumber ≤ w'.blockNumber) :
    ((get_minting_status N d w c).2.2).marker = some m
    ∧ ((get_minting_status N d w' c').2.2).marker = some m
    ∧ (get_minting_status N d w c).1
        = Status.minting ((w.blockNumber : Int) - (m : Int))
            (N.getD 0 - ((w.blockNumber : Int) - (m : Int)))
    ∧ (get_minting_status N d w' c').1
        = Status.minting ((w'.blockNumber : Int) - (m : Int))
            (N.getD 0 - ((w'.blockNumber : Int) - (m : Int)))
    ∧ (w.blockNumber : Int) - (m : Int) ≤ (w'.blockNumber : Int) - (m : Int) := by
  have h1 := get_minting_status_step2 N d w c m hs1 hN hp hm hav
  have h2 := get_minting_status_step2 N d w' c' m hs1' hN hp' hm' hav'
  rw [h1, h2]
  refine ⟨hm, hm', rfl, rfl, ?_⟩
  omega

/-- C6 witness: requirement 2, deployment block 9 (so the Step 1 guard keeps
the confirmed check false), processed from block 9 on, marker anchored at
block 6, heights 10 then 11: confirmations go 4 then 5. -/
theorem c6_witness :
    (get_minting_status (some 2) 9 (plainW3 10 (fun b => decide (9 ≤ b)) false)
        ⟨true, [], some 6⟩).1 = Status.minting 4 (-2)
    ∧ (get_minting_status (some 2) 9 (plainW3 11 (fun b => decide (9 ≤ b)) false)
        ⟨true, [], some 6⟩).1 = Status.minting 5 (-3)
    ∧ ((get_minting_status (some 2) 9 (plainW3 10 (fun b => decide (9 ≤ b)) false)
        ⟨true, [], some 6⟩).2.2).marker = some 6
    ∧ (4 : Int) ≤ 5 := by
  have h := c6_marker_never_overwritten (some 2) 9
    (plainW3 10 (fun b => decide (9 ≤ b)) false) (plainW3 11 (fun b => decide (9 ≤ b)) false)
    ⟨true, [], some 6⟩ ⟨true, [], some 6⟩ 6
    rfl rfl rfl rfl (by decide) (by decide) (by decide) (by decide) (by decide) (by decide)
  refine ⟨?_, ?_, h.1, by norm_num⟩
  · rw [h.2.2.1]; decide
  · rw [h.2.2.2.1]; decide

/-! ### Claim C8 (corrected) -/

theorem keccak256_length (msg : List Nat) : (keccak256 msg).length = 32 := by
  unfold keccak256 squeeze32
  simp

/-- C8 counterexample: the normalizer's output is the 32-byte Keccak-256
digest, not a 20-byte-class identifier: on input "a" the output length is 32,
not 20. -/
theorem c8_counterexample :
    (prepare_mint_id (MintIdInput.str "a")).length ≠ 20 := by
  unfold prepare_mint_id
  rw [keccak256_length]
  decide

/-- C8 amended: for every textual or byte-sequence identifier the normalizer
is deterministic — equal inputs give equal opaque ids, and the result is a
pure function of the input bytes, hence stable across process restarts — and
its output is a fixed-width 32-byte identifier produced by the one-way
Keccak-256 hash. -/
theorem c8_deterministic_fixed_width (x y : MintIdInput) (hxy : x = y) :
    prepare_mint_id x = prepare_mint_id y
    ∧ (prepare_mint_id x).length = 32 := by
  subst hxy
  cases x <;> exact ⟨rfl, keccak256_length _⟩

/-- C8 witness: the identifier "m1". -/
theorem c8_witness :
    prepare_mint_id (MintIdInput.str "m1") = prepare_mint_id (MintIdInput.str "m1")
    ∧ (prepare_mint_id (MintIdInput.str "m1")).length = 32 :=
  c8_deterministic_fixed_width (MintIdInput.str "m1") (MintIdInput.str "m1") rfl

/-! ### Claim C9 (corrected) -/

/-- C9 counterexample: `tokens_amount = "-5"` is a well-formed negative
integer string, hence not a non-negative integer; the claim demands a 400
response with no submission, but Python's `int()` parses it, so the route
answers success and submits the mint with a negative amount. -/
theorem c9_counterexample :
    mint_tokens_route (fun _ => true) "m1" "0xabc" "-5"
      = ⟨HttpResult.ok (), true⟩ := by
  decide

/-- C9 amended: the route responds 400 with "bad tokens_amount" and submits
no transaction exactly when `tokens_amount` fails `int()` parsing (given a
non-empty mint id and a valid address); a well-formed negative integer
string parses, is accepted, and the mint is submitted (see the
counterexample). -/
theorem c9_bad_tokens_rejected (isAddress : String → Bool)
    (mint_id address tokens_amount : String)
    (hmid : mint_id.length ≠ 0) (haddr : isAddress address = true)
    (hbad : pyIntOfString tokens_amount = none) :
    mint_tokens_route isAddress mint_id address tokens_amount
      = ⟨HttpResult.badRequest "bad tokens_amount", false⟩ := by
  unfold mint_tokens_route get_mint_id_param get_address_param get_tokens_param
  rw [if_neg hmid, if_pos haddr, hbad]

/-- C9 witness: a non-parsable `tokens_amount` is rejected with 400 and no
submission. -/
theorem c9_witness :
    ("m1".length ≠ 0) ∧ pyIntOfString "abc" = none
    ∧ mint_tokens_route (fun _ => true) "m1" "0xabc" "abc"
        = ⟨HttpResult.badRequest "bad tokens_amount", false⟩ := by
  refine ⟨by decide, by decide, ?_⟩
  exact c9_bad_tokens_rejected (fun _ => true) "m1" "0xabc" "abc"
    (by decide) rfl (by decide)

end Minter
